import Mathlib

/-!
Verification of the PIN-AI subnet-sdk Agent Runtime Core specification.

The repository's `src/python` holds example scripts driving the SDK; the
SDK core itself (bidding strategy, batch submission, task executor, agent
runtime, configuration builder, metrics registry) is not present in the
sources, so those components are modelled here from the specification's
words.  `ExampleHandler.execute` is embedded directly from
`src/python/example.py`.  Python `bytes` values are modelled as `String`
(all literals involved are ASCII), timestamps as `Nat`.
-/

namespace SubnetSDK

/-- Task data model: identifier, intent identifier, type tag, payload,
metadata, creation timestamp, deadline timestamp (`example.py` constructs
`Task(id=..., intent_id=..., type=..., data=..., metadata=..., deadline=...,
created_at=...)`). -/
structure Task where
  id : String
  intent_id : String
  type : String
  data : String
  metadata : List (String × String)
  deadline : Nat
  created_at : Nat
  deriving DecidableEq

/-- Result data model: success flag, opaque output bytes, optional error
description (`example.py` constructs `Result(data=..., success=..., error=...)`,
`error` defaulting to none). -/
structure Result where
  success : Bool
  data : String
  error : Option String
  deriving DecidableEq

/-- Embedded from `src/python/example.py` lines 18-44: `ExampleHandler.execute`
returns a successful computation result for type "compute", a successful
storage result for type "storage", and otherwise a failed Result whose error
is "Unsupported task type: " followed by the task's type.  The
`asyncio.sleep` calls only model elapsed time and do not affect the returned
value. -/
def ExampleHandler.execute (task : Task) : Result :=
  if task.type = "compute" then
    { success := true, data := "computation result", error := none }
  else if task.type = "storage" then
    { success := true, data := "storage result", error := none }
  else
    { success := false, data := "", error := some ("Unsupported task type: " ++ task.type) }

/-- The concrete task built in `example.py` lines 77-85 (timestamps
abstracted to 0). -/
def exampleTask : Task :=
  { id := "task-123"
    intent_id := "intent-456"
    type := "compute"
    data := "example data"
    metadata := [("priority", "high")]
    deadline := 0
    created_at := 0 }

/-- Dynamic bidding strategy configuration: minimum price, maximum price,
and the configured maximum of concurrent tasks (`example.py` line 61 uses
`with_bidding_strategy("dynamic", 50, 500)` together with
`with_max_concurrent_tasks(10)`). -/
structure DynamicStrategy where
  minPrice : Nat
  maxPrice : Nat
  maxConcurrentTasks : Nat
  deriving DecidableEq

/-- Modelled from the spec: `decide(task, currentLoad)` of the dynamic
bidding strategy (spec section 4.2) is missing from the sources.  Price scales
between the configured minimum and maximum as a function of
currentLoad / maxConcurrentTasks: the minimum at zero load, linear
interpolation in between, and "decline" (none) once currentLoad reaches the
configured maximum concurrent tasks (no bid when at capacity). -/
def DynamicStrategy.decide (s : DynamicStrategy) (_task : Task) (currentLoad : Nat) : Option Nat :=
  if s.maxConcurrentTasks ≤ currentLoad then
    none
  else
    some (s.minPrice + (s.maxPrice - s.minPrice) * currentLoad / s.maxConcurrentTasks)

/-- C3: for min=50, max=500, maxConcurrentTasks=10 the dynamic strategy
returns price 50 at load 0, 275 at load 5, and declines at load 10; in
general the price is the linear interpolation between minimum and maximum in
currentLoad / maxConcurrentTasks, and decide declines when currentLoad
equals maxConcurrentTasks. -/
theorem dynamic_decide_spec (t : Task) :
    (∀ (s : DynamicStrategy) (load : Nat), load < s.maxConcurrentTasks →
      s.decide t load = some (s.minPrice + (s.maxPrice - s.minPrice) * load / s.maxConcurrentTasks)) ∧
    (∀ s : DynamicStrategy, s.decide t s.maxConcurrentTasks = none) ∧
    (DynamicStrategy.mk 50 500 10).decide t 0 = some 50 ∧
    (DynamicStrategy.mk 50 500 10).decide t 5 = some 275 ∧
    (DynamicStrategy.mk 50 500 10).decide t 10 = none := by
  refine ⟨?_, ?_, ?_, ?_, ?_⟩
  · intro s load h
    simp [DynamicStrategy.decide, Nat.not_le.mpr h]
  · intro s
    simp [DynamicStrategy.decide]
  · simp [DynamicStrategy.decide]
  · simp [DynamicStrategy.decide]
  · simp [DynamicStrategy.decide]

/-- C3 witness: the general interpolation clause of `dynamic_decide_spec`
evaluated at the configured strategy and load 5 yields the midpoint 275. -/
theorem dynamic_decide_spec_witness :
    (DynamicStrategy.mk 50 500 10).decide exampleTask 5
      = some (50 + (500 - 50) * 5 / 10) :=
  (dynamic_decide_spec exampleTask).1 (DynamicStrategy.mk 50 500 10) 5 (by decide)

/-- Per-item acknowledgment of a batch submission: accepted flag and reason
(`batch_bid_submit.py` reads `ack.accepted` and `ack.reason`). -/
structure BidAck where
  accepted : Bool
  reason : String
  deriving DecidableEq

/-- BatchResponse data model: success count, failed count, message, and the
ordered per-item acknowledgment sequence (`batch_bid_submit.py` reads
`response.success`, `response.failed`, `response.msg`, `response.acks`). -/
structure BatchResponse where
  success : Nat
  failed : Nat
  msg : String
  acks : List BidAck
  deriving DecidableEq

/-- Modelled from the spec: the strict (no partial results allowed) pass of
`submitBatch` (spec section 4.3) is missing from the sources.  Items are
attempted in input order and processing stops at the first failure, so the
acknowledgment sequence is truncated to the items actually attempted. -/
def attemptUntilFailure (attempt : α → BidAck) : List α → List BidAck
  | [] => []
  | x :: xs =>
    let a := attempt x
    if a.accepted then a :: attemptUntilFailure attempt xs else [a]

/-- Modelled from the spec: `submitBatch(items, partialOk)` (spec section 4.3)
is missing from the sources.  `attempt` is the remote service's per-item
outcome.  When partial results are allowed (`pOk = true`) every item is
attempted, one acknowledgment per item in input order; otherwise processing
short-circuits at the first failure.  `success` and `failed` count the
accepted and rejected acknowledgments. -/
def submitBatch (attempt : α → BidAck) (items : List α) (pOk : Bool) : BatchResponse :=
  let acks := if pOk then items.map attempt else attemptUntilFailure attempt items
  { success := (acks.filter (fun a => a.accepted)).length
    failed := (acks.filter (fun a => !a.accepted)).length
    msg := ""
    acks := acks }

theorem attemptUntilFailure_of_first_failure (attempt : α → BidAck)
    (pre : List α) (x : α) (post : List α)
    (hpre : ∀ y ∈ pre, (attempt y).accepted = true)
    (hx : (attempt x).accepted = false) :
    attemptUntilFailure attempt (pre ++ x :: post)
      = pre.map attempt ++ [attempt x] := by
  induction pre with
  | nil => simp [attemptUntilFailure, hx]
  | cons p ps ih =>
    have hp : (attempt p).accepted = true := hpre p (List.mem_cons_self p ps)
    have hps : ∀ y ∈ ps, (attempt y).accepted = true := by
      intro y hy
      exact hpre y (List.mem_cons_of_mem p hy)
    simp [attemptUntilFailure, hp, ih hps]

theorem filter_map_accepted (attempt : α → BidAck) (l : List α)
    (h : ∀ y ∈ l, (attempt y).accepted = true) :
    (l.map attempt).filter (fun a => a.accepted) = l.map attempt := by
  induction l with
  | nil => simp
  | cons p ps ih =>
    have hp : (attempt p).accepted = true := h p (List.mem_cons_self p ps)
    have hps : ∀ y ∈ ps, (attempt y).accepted = true := by
      intro y hy
      exact h y (List.mem_cons_of_mem p hy)
    simp [hp, ih hps]

theorem filter_map_rejected (attempt : α → BidAck) (l : List α)
    (h : ∀ y ∈ l, (attempt y).accepted = true) :
    (l.map attempt).filter (fun a => !a.accepted) = [] := by
  induction l with
  | nil => simp
  | cons p ps ih =>
    have hp : (attempt p).accepted = true := h p (List.mem_cons_self p ps)
    have hps : ∀ y ∈ ps, (attempt y).accepted = true := by
      intro y hy
      exact h y (List.mem_cons_of_mem p hy)
    simp [hp, ih hps]

/-- C1: with partial results disallowed and the first failing item at
(1-based) position `pre.length + 1`, the batch response has exactly
`pre.length + 1` acknowledgments (truncated to the items actually
attempted), a failed count of 1, and a success count of `pre.length`. -/
theorem submitBatch_strict_first_failure (attempt : α → BidAck)
    (pre : List α) (x : α) (post : List α)
    (hpre : ∀ y ∈ pre, (attempt y).accepted = true)
    (hx : (attempt x).accepted = false) :
    (submitBatch attempt (pre ++ x :: post) false).acks.length = pre.length + 1 ∧
    (submitBatch attempt (pre ++ x :: post) false).failed = 1 ∧
    (submitBatch attempt (pre ++ x :: post) false).success = pre.length := by
  have hacks := attemptUntilFailure_of_first_failure attempt pre x post hpre hx
  refine ⟨?_, ?_, ?_⟩
  · simp [submitBatch, hacks]
  · simp [submitBatch, hacks, filter_map_rejected attempt pre hpre, hx]
  · simp [submitBatch, hacks, filter_map_accepted attempt pre hpre, hx]

/-- C1 witness: a batch of 5 items whose third item fails, submitted with
partial results disallowed, yields exactly 3 acknowledgments, failed = 1 and
success = 2. -/
theorem submitBatch_strict_first_failure_witness :
    (submitBatch (fun b => BidAck.mk b "") [true, true, false, true, true] false).acks.length = 3 ∧
    (submitBatch (fun b => BidAck.mk b "") [true, true, false, true, true] false).failed = 1 ∧
    (submitBatch (fun b => BidAck.mk b "") [true, true, false, true, true] false).success = 2 :=
  submitBatch_strict_first_failure (fun b => BidAck.mk b "") [true, true] false [true, true]
    (by decide) (by decide)

theorem length_filter_pos_add_neg (p : α → Bool) (l : List α) :
    (l.filter p).length + (l.filter (fun x => !p x)).length = l.length := by
  induction l with
  | nil => simp
  | cons a as ih =>
    by_cases h : p a = true
    · simp [h, ← ih, Nat.succ_add]
    · simp [h, ← ih]
      omega

/-- C2: with partial results allowed, every item is attempted: the
acknowledgment sequence is exactly the per-item outcome of each input item in
input order (hence has the input's length, and no failure prevents the
attempt of a subsequent item), and the success and failed counts equal the
number of accepted and rejected items, summing to the number of items. -/
theorem submitBatch_partial_all_attempted (attempt : α → BidAck) (items : List α) :
    (submitBatch attempt items true).acks = items.map attempt ∧
    (submitBatch attempt items true).acks.length = items.length ∧
    (submitBatch attempt items true).success
      = ((items.map attempt).filter (fun a => a.accepted)).length ∧
    (submitBatch attempt items true).failed
      = ((items.map attempt).filter (fun a => !a.accepted)).length ∧
    (submitBatch attempt items true).success + (submitBatch attempt items true).failed
      = items.length := by
  refine ⟨rfl, by simp [submitBatch], rfl, rfl, ?_⟩
  have h := length_filter_pos_add_neg (fun a : BidAck => a.accepted) (items.map attempt)
  simpa [submitBatch] using h

/-- Observable behavior of one handler invocation, abstracting over real
time: the handler either returns a Result at some finish time, raises an
exception at some finish time, or never finishes. -/
inductive HandlerBehavior where
  | returns (finishTime : Nat) (r : Result)
  | raises (finishTime : Nat) (msg : String)
  | hangs
  deriving DecidableEq

/-- The synthetic Result the executor produces when the deadline expires. -/
def deadlineExceededResult : Result :=
  { success := false, data := "", error := some "deadline exceeded" }

/-- Modelled from the spec: TaskExecutor's wrapping of one handler invocation
(spec section 4.4) is missing from the sources.  The invocation races the
handler against the Task's deadline: a Result produced by the deadline is
returned as-is; an exception raised by the deadline is caught and converted
to a failed Result carrying the description; if nothing is produced by the
deadline the invocation is cancelled and the synthetic deadline-exceeded
Result is produced instead.  The executor always returns a Result, never
propagating the handler's exception. -/
def TaskExecutor.run (deadline : Nat) (b : HandlerBehavior) : Result :=
  match b with
  | .returns t r => if t ≤ deadline then r else deadlineExceededResult
  | .raises t msg =>
      if t ≤ deadline then { success := false, data := "", error := some msg }
      else deadlineExceededResult
  | .hangs => deadlineExceededResult

/-- A handler handed over at time `t0` cannot have finished earlier than
`t0`. -/
def HandlerBehavior.finishNotBefore (b : HandlerBehavior) (t0 : Nat) : Prop :=
  match b with
  | .returns t _ => t0 ≤ t
  | .raises t _ => t0 ≤ t
  | .hangs => True

/-- The handler produced an outcome (a Result or an exception) no later than
time `d`. -/
def HandlerBehavior.producesBy (b : HandlerBehavior) (d : Nat) : Prop :=
  match b with
  | .returns t _ => t ≤ d
  | .raises t _ => t ≤ d
  | .hangs => False

/-- C4: a task whose deadline has already passed when handed over produces
the synthetic failed deadline-exceeded Result regardless of handler behavior;
more generally any invocation that has not produced an outcome by the
deadline is replaced by `Result{success:false, error:"deadline exceeded"}`. -/
theorem executor_deadline_enforced (deadline handedAt : Nat) (b : HandlerBehavior)
    (hpast : deadline < handedAt) (hstart : b.finishNotBefore handedAt) :
    (TaskExecutor.run deadline b = deadlineExceededResult ∧
      (TaskExecutor.run deadline b).success = false) ∧
    (∀ (d : Nat) (c : HandlerBehavior), ¬ c.producesBy d →
      TaskExecutor.run d c = deadlineExceededResult) := by
  constructor
  · have hrun : TaskExecutor.run deadline b = deadlineExceededResult := by
      cases b with
      | returns t r =>
        have : ¬ t ≤ deadline := by
          simp only [HandlerBehavior.finishNotBefore] at hstart
          omega
        simp [TaskExecutor.run, this]
      | raises t msg =>
        have : ¬ t ≤ deadline := by
          simp only [HandlerBehavior.finishNotBefore] at hstart
          omega
        simp [TaskExecutor.run, this]
      | hangs => rfl
    exact ⟨hrun, by rw [hrun]; rfl⟩
  · intro d c hc
    cases c with
    | returns t r =>
      simp only [HandlerBehavior.producesBy] at hc
      simp [TaskExecutor.run, hc]
    | raises t msg =>
      simp only [HandlerBehavior.producesBy] at hc
      simp [TaskExecutor.run, hc]
    | hangs => rfl

/-- C4 witness: a handler handed over at time 5 against a deadline of 3
yields the synthetic deadline-exceeded failure. -/
theorem executor_deadline_enforced_witness :
    TaskExecutor.run 3 (HandlerBehavior.returns 7 { success := true, data := "late", error := none })
        = deadlineExceededResult ∧
    (TaskExecutor.run 3 (HandlerBehavior.returns 7 { success := true, data := "late", error := none })).success
        = false :=
  (executor_deadline_enforced 3 5
    (HandlerBehavior.returns 7 { success := true, data := "late", error := none })
    (by decide) (by simp [HandlerBehavior.finishNotBefore])).1

/-- C5: a handler that raises an exception never crashes the executor's
caller: the executor converts the exception to a failed Result carrying a
description (the exception's message when it is raised in time, the
deadline-exceeded description otherwise), while a Result the handler returns
in time is handed back unchanged — callers observe success or failure only
through the returned Result. -/
theorem executor_catches_handler_failures (deadline t : Nat) (msg : String) (r : Result) :
    ((TaskExecutor.run deadline (HandlerBehavior.raises t msg)).success = false ∧
      ∃ d, (TaskExecutor.run deadline (HandlerBehavior.raises t msg)).error = some d) ∧
    (t ≤ deadline →
      TaskExecutor.run deadline (HandlerBehavior.raises t msg)
        = { success := false, data := "", error := some msg }) ∧
    (t ≤ deadline → TaskExecutor.run deadline (HandlerBehavior.returns t r) = r) := by
  refine ⟨?_, ?_, ?_⟩
  · by_cases h : t ≤ deadline
    · exact ⟨by simp [TaskExecutor.run, h], msg, by simp [TaskExecutor.run, h]⟩
    · exact ⟨by simp [TaskExecutor.run, h, deadlineExceededResult],
        "deadline exceeded", by simp [TaskExecutor.run, h, deadlineExceededResult]⟩
  · intro h
    simp [TaskExecutor.run, h]
  · intro h
    simp [TaskExecutor.run, h]

/-- C5 witness: a handler raising "boom" at time 1 under deadline 10 yields
the failed Result carrying "boom". -/
theorem executor_catches_handler_failures_witness :
    TaskExecutor.run 10 (HandlerBehavior.raises 1 "boom")
      = { success := false, data := "", error := some "boom" } :=
  (executor_catches_handler_failures 10 1 "boom"
    { success := true, data := "", error := none }).2.1 (by decide)

/-- What the runtime does with one streamed task: either no bid is submitted
(an implicit decline, not an error) or a bid at some price is submitted. -/
inductive BidAction where
  | noBid
  | submitBid (price : Nat)
  deriving DecidableEq

/-- Possible runtime errors surfaced by the task-handling loop; an
unsupported task type is NOT one of them. -/
structure RuntimeError where
  msg : String
  deriving DecidableEq

/-- Modelled from the spec: the AgentRuntime's handling of one streamed Task
while Running (spec sections 4.5 and 8) is missing from the sources.  A task
whose type is in the configured capability set is passed to the bidding
strategy and a bid is submitted whenever a price is decided; a task of
unsupported type is declined implicitly — no bid submission and no error. -/
def AgentRuntime.handleStreamTask (capabilities : List String)
    (decide : Task → Nat → Option Nat) (load : Nat) (t : Task) :
    Except RuntimeError BidAction :=
  if t.type ∈ capabilities then
    match decide t load with
    | some p => Except.ok (BidAction.submitBid p)
    | none => Except.ok BidAction.noBid
  else
    Except.ok BidAction.noBid

/-- C6: while Running, a streamed task whose type is not in the configured
capability set never results in a bid submission — the runtime returns the
implicit-decline action, and this is not treated as an error. -/
theorem runtime_unsupported_type_no_bid (capabilities : List String)
    (decide : Task → Nat → Option Nat) (load : Nat) (t : Task)
    (h : t.type ∉ capabilities) :
    AgentRuntime.handleStreamTask capabilities decide load t
      = Except.ok BidAction.noBid := by
  simp [AgentRuntime.handleStreamTask, h]

/-- C6 witness: a task of type "compute" against capability set ["storage"]
is declined implicitly with no error. -/
theorem runtime_unsupported_type_no_bid_witness :
    AgentRuntime.handleStreamTask ["storage"] (fun _ _ => some 100) 0 exampleTask
      = Except.ok BidAction.noBid :=
  runtime_unsupported_type_no_bid ["storage"] (fun _ _ => some 100) 0 exampleTask
    (by decide)

/-- Metrics data model: the four counters — tasks completed, tasks failed,
bids submitted, bids won (`example.py` line 95 unpacks
`completed, failed, total_bids, won_bids = metrics.get_stats()`). -/
structure Metrics where
  tasksCompleted : Nat
  tasksFailed : Nat
  bidsSubmitted : Nat
  bidsWon : Nat
  deriving DecidableEq

/-- A fresh AgentRuntime's metrics: all counters zero. -/
def Metrics.init : Metrics := ⟨0, 0, 0, 0⟩

/-- The four kinds of terminal transitions that update the registry. -/
inductive MetricsOp where
  | taskCompleted
  | taskFailed
  | bidSubmitted
  | bidWon
  deriving DecidableEq

/-- Modelled from the spec: the MetricsRegistry update operation (spec
sections 3 and 5) is missing from the sources.  Each terminal transition
performs a single combined increment of the corresponding counter; counters
are never decremented. -/
def Metrics.step (m : Metrics) : MetricsOp → Metrics
  | .taskCompleted => { m with tasksCompleted := m.tasksCompleted + 1 }
  | .taskFailed => { m with tasksFailed := m.tasksFailed + 1 }
  | .bidSubmitted => { m with bidsSubmitted := m.bidsSubmitted + 1 }
  | .bidWon => { m with bidsWon := m.bidsWon + 1 }

/-- Modelled from the spec: `get_stats()` (spec section 6) is missing from
the sources — a point-in-time snapshot
`(completed, failed, total_bids, won_bids)`. -/
def Metrics.get_stats (m : Metrics) : Nat × Nat × Nat × Nat :=
  (m.tasksCompleted, m.tasksFailed, m.bidsSubmitted, m.bidsWon)

/-- Modelled from the spec: the executor's metrics side effect (spec section
4.4) is missing from the sources — exactly one completed/failed increment per
Task on terminal transition, chosen by the Result's success flag. -/
def Metrics.recordResult (m : Metrics) (r : Result) : Metrics :=
  if r.success then m.step MetricsOp.taskCompleted else m.step MetricsOp.taskFailed

theorem metrics_step_le (m : Metrics) (op : MetricsOp) :
    m.tasksCompleted ≤ (m.step op).tasksCompleted ∧
    m.tasksFailed ≤ (m.step op).tasksFailed ∧
    m.bidsSubmitted ≤ (m.step op).bidsSubmitted ∧
    m.bidsWon ≤ (m.step op).bidsWon := by
  cases op <;> simp [Metrics.step]

theorem metrics_foldl_le (ops : List MetricsOp) : ∀ m : Metrics,
    m.tasksCompleted ≤ (ops.foldl Metrics.step m).tasksCompleted ∧
    m.tasksFailed ≤ (ops.foldl Metrics.step m).tasksFailed ∧
    m.bidsSubmitted ≤ (ops.foldl Metrics.step m).bidsSubmitted ∧
    m.bidsWon ≤ (ops.foldl Metrics.step m).bidsWon := by
  induction ops with
  | nil => intro m; simp
  | cons op ops ih =>
    intro m
    have h1 := metrics_step_le m op
    have h2 := ih (m.step op)
    simp only [List.foldl_cons]
    exact ⟨h1.1.trans h2.1, h1.2.1.trans h2.2.1,
      h1.2.2.1.trans h2.2.2.1, h1.2.2.2.trans h2.2.2.2⟩

theorem metrics_record_counts (results : List Result) : ∀ m : Metrics,
    (results.foldl Metrics.recordResult m).tasksCompleted
      = m.tasksCompleted + (results.filter (fun r => r.success)).length ∧
    (results.foldl Metrics.recordResult m).tasksFailed
      = m.tasksFailed + (results.filter (fun r => !r.success)).length := by
  induction results with
  | nil => intro m; simp
  | cons r rs ih =>
    intro m
    by_cases h : r.success = true
    · have := ih (m.recordResult r)
      simp only [List.foldl_cons] at *
      simp [h, Metrics.recordResult, Metrics.step] at this ⊢
      omega
    · have := ih (m.recordResult r)
      simp only [List.foldl_cons] at *
      simp [h, Metrics.recordResult, Metrics.step] at this ⊢
      omega

/-- C7: every counter read through get_stats is monotone across any sequence
of registry operations over the runtime's lifetime, and after executing the
tasks of `results` (n of them, f failing) from a fresh runtime, completed
equals n - f and failed equals f. -/
theorem metrics_monotone_and_counts :
    (∀ (m : Metrics) (ops : List MetricsOp),
      (m.get_stats).1 ≤ ((ops.foldl Metrics.step m).get_stats).1 ∧
      (m.get_stats).2.1 ≤ ((ops.foldl Metrics.step m).get_stats).2.1 ∧
      (m.get_stats).2.2.1 ≤ ((ops.foldl Metrics.step m).get_stats).2.2.1 ∧
      (m.get_stats).2.2.2 ≤ ((ops.foldl Metrics.step m).get_stats).2.2.2) ∧
    (∀ results : List Result,
      ((results.foldl Metrics.recordResult Metrics.init).get_stats).1
        = results.length - (results.filter (fun r => !r.success)).length ∧
      ((results.foldl Metrics.recordResult Metrics.init).get_stats).2.1
        = (results.filter (fun r => !r.success)).length) := by
  constructor
  · intro m ops
    exact metrics_foldl_le ops m
  · intro results
    obtain ⟨h1, h2⟩ := metrics_record_counts results Metrics.init
    have hsum := length_filter_pos_add_neg (fun r : Result => r.success) results
    have hz1 : Metrics.init.tasksCompleted = 0 := rfl
    have hz2 : Metrics.init.tasksFailed = 0 := rfl
    refine ⟨?_, ?_⟩
    · show (results.foldl Metrics.recordResult Metrics.init).tasksCompleted = _
      rw [h1, hz1]
      omega
    · show (results.foldl Metrics.recordResult Metrics.init).tasksFailed = _
      rw [h2, hz2]
      omega

/-- Configuration builder state: the five required fields, unset until the
corresponding with_* call supplies them (`example.py` lines 52-63 chains
`ConfigBuilder().with_subnet_id(...)....build()`). -/
structure ConfigBuilder where
  subnet_id : Option String
  agent_id : Option String
  private_key : Option String
  matcher_addr : Option String
  capabilities : List String
  deriving DecidableEq

/-- A fresh builder: no defaults for any required field. -/
def ConfigBuilder.empty : ConfigBuilder := ⟨none, none, none, none, []⟩

def ConfigBuilder.with_subnet_id (b : ConfigBuilder) (v : String) : ConfigBuilder :=
  { b with subnet_id := some v }

def ConfigBuilder.with_agent_id (b : ConfigBuilder) (v : String) : ConfigBuilder :=
  { b with agent_id := some v }

def ConfigBuilder.with_private_key (b : ConfigBuilder) (v : String) : ConfigBuilder :=
  { b with private_key := some v }

def ConfigBuilder.with_matcher_addr (b : ConfigBuilder) (v : String) : ConfigBuilder :=
  { b with matcher_addr := some v }

def ConfigBuilder.with_capabilities (b : ConfigBuilder) (v : List String) : ConfigBuilder :=
  { b with capabilities := v }

/-- A validated configuration: every required field present. -/
structure Config where
  subnet_id : String
  agent_id : String
  private_key : String
  matcher_addr : String
  capabilities : List String
  deriving DecidableEq

/-- ConfigError carries the names of ALL missing required fields at once. -/
structure ConfigError where
  missing : List String
  deriving DecidableEq

/-- The names of the required fields absent from the builder, in declaration
order. -/
def ConfigBuilder.missingFields (b : ConfigBuilder) : List String :=
  (if b.subnet_id.isNone then ["subnet_id"] else []) ++
  (if b.agent_id.isNone then ["agent_id"] else []) ++
  (if b.private_key.isNone then ["private_key"] else []) ++
  (if b.matcher_addr.isNone then ["matcher_addr"] else []) ++
  (if b.capabilities.isEmpty then ["capabilities"] else [])

/-- Modelled from the spec: `ConfigBuilder.build` (spec sections 6 and 9) is
missing from the sources.  Validation is eager: when any required field is
absent, build returns a ConfigError enumerating every missing required field
at once rather than failing on the first. -/
def ConfigBuilder.build (b : ConfigBuilder) : Except ConfigError Config :=
  if b.missingFields = [] then
    Except.ok
      { subnet_id := b.subnet_id.getD ""
        agent_id := b.agent_id.getD ""
        private_key := b.private_key.getD ""
        matcher_addr := b.matcher_addr.getD ""
        capabilities := b.capabilities }
  else
    Except.error ⟨b.missingFields⟩

/-- The observable network side effects of a successful start. -/
inductive NetworkAction where
  | openTaskStream (addr : String)
  deriving DecidableEq

/-- Modelled from the spec: `start()` (spec section 4.5) is missing from the
sources.  It validates the configuration first and fails with ConfigError
before any network activity occurs; only on a valid configuration does it
open the task stream subscription (the returned action list). -/
def AgentRuntime.start (b : ConfigBuilder) : Except ConfigError (Config × List NetworkAction) :=
  match b.build with
  | .error e => Except.error e
  | .ok c => Except.ok (c, [NetworkAction.openTaskStream c.matcher_addr])

/-- C8: a configuration missing any required field makes start() fail with a
ConfigError before any network activity occurs (no network action is
produced), and the error enumerates every missing required field at once —
in particular a missing matcher_addr appears in it. -/
theorem start_missing_required_fields (b : ConfigBuilder) :
    (b.missingFields ≠ [] → AgentRuntime.start b = Except.error ⟨b.missingFields⟩) ∧
    (b.subnet_id = none → "subnet_id" ∈ b.missingFields) ∧
    (b.agent_id = none → "agent_id" ∈ b.missingFields) ∧
    (b.private_key = none → "private_key" ∈ b.missingFields) ∧
    (b.matcher_addr = none → "matcher_addr" ∈ b.missingFields) ∧
    (b.capabilities = [] → "capabilities" ∈ b.missingFields) := by
  refine ⟨?_, ?_, ?_, ?_, ?_, ?_⟩
  · intro h
    simp [AgentRuntime.start, ConfigBuilder.build, h]
  · intro h
    simp [ConfigBuilder.missingFields, h]
  · intro h
    simp [ConfigBuilder.missingFields, h]
  · intro h
    simp [ConfigBuilder.missingFields, h]
  · intro h
    simp [ConfigBuilder.missingFields, h]
  · intro h
    simp [ConfigBuilder.missingFields, h]

/-- C8 witness: a builder set up exactly like `example.py` but without the
with_matcher_addr call fails to start with a ConfigError whose missing-field
list contains (and here is exactly) "matcher_addr"; no network action is
produced. -/
theorem start_missing_required_fields_witness :
    AgentRuntime.start
        ((((ConfigBuilder.empty.with_subnet_id "my-subnet-1").with_agent_id
            "my-agent-1").with_private_key "aaaa").with_capabilities ["compute", "storage"])
      = Except.error ⟨["matcher_addr"]⟩ ∧
    "matcher_addr" ∈
      ((((ConfigBuilder.empty.with_subnet_id "my-subnet-1").with_agent_id
          "my-agent-1").with_private_key "aaaa").with_capabilities
          ["compute", "storage"]).missingFields :=
  ⟨(start_missing_required_fields
      ((((ConfigBuilder.empty.with_subnet_id "my-subnet-1").with_agent_id
          "my-agent-1").with_private_key "aaaa").with_capabilities
          ["compute", "storage"])).1 (by decide),
    (start_missing_required_fields
      ((((ConfigBuilder.empty.with_subnet_id "my-subnet-1").with_agent_id
          "my-agent-1").with_private_key "aaaa").with_capabilities
          ["compute", "storage"])).2.2.2.2.1 rfl⟩

/-- State of the executor's worker pool: the identifiers of the tasks whose
handler invocations currently run, and the accepted tasks waiting in the
FIFO queue. -/
structure ExecPoolState where
  running : List String
  queued : List String
  deriving DecidableEq

/-- A fresh pool: nothing running, nothing queued. -/
def ExecPoolState.init : ExecPoolState := ⟨[], []⟩

/-- Events observable at the pool boundary: a task is submitted, or a
running handler invocation completes. -/
inductive PoolEvent where
  | submit (id : String)
  | complete (id : String)
  deriving DecidableEq

/-- Modelled from the spec: TaskExecutor's bounded worker pool (spec
sections 4.4 and 5) is missing from the sources.  A submitted task starts
immediately when fewer than `N = maxConcurrentTasks` invocations run,
otherwise it is appended to the FIFO queue; when a running invocation
completes, its slot frees and the queue's head (if any) starts.  A
completion of a task that is not running is ignored. -/
def ExecPoolState.step (N : Nat) (s : ExecPoolState) : PoolEvent → ExecPoolState
  | .submit t =>
      if s.running.length < N then { s with running := s.running ++ [t] }
      else { s with queued := s.queued ++ [t] }
  | .complete t =>
      if t ∈ s.running then
        match s.queued with
        | [] => { running := s.running.erase t, queued := [] }
        | q :: qs => { running := s.running.erase t ++ [q], queued := qs }
      else s

/-- The pool state after a sequence of events from a fresh pool. -/
def ExecPoolState.run (N : Nat) (events : List PoolEvent) : ExecPoolState :=
  events.foldl (ExecPoolState.step N) ExecPoolState.init

/-- Pool invariant: at most N invocations run, and the queue is nonempty only
when all N slots are taken. -/
def ExecPoolState.Inv (N : Nat) (s : ExecPoolState) : Prop :=
  s.running.length ≤ N ∧ (s.queued ≠ [] → s.running.length = N)

theorem execPool_step_inv (N : Nat) (s : ExecPoolState) (e : PoolEvent)
    (h : ExecPoolState.Inv N s) : ExecPoolState.Inv N (ExecPoolState.step N s e) := by
  obtain ⟨hlen, hq⟩ := h
  cases e with
  | submit t =>
    by_cases hfull : s.running.length < N
    · refine ⟨?_, ?_⟩
      · simp [ExecPoolState.step, hfull]
        omega
      · intro hne
        simp only [ExecPoolState.step, if_pos hfull] at hne
        exact absurd (hq hne) (by omega)
    · refine ⟨?_, ?_⟩
      · simp [ExecPoolState.step, hfull, hlen]
      · intro _
        simp [ExecPoolState.step, hfull]
        omega
  | complete t =>
    by_cases hmem : t ∈ s.running
    · have herase := List.length_erase_add_one hmem
      cases hqd : s.queued with
      | nil =>
        refine ⟨?_, ?_⟩
        · simp [ExecPoolState.step, hmem, hqd]
          omega
        · intro hne
          simp [ExecPoolState.step, hmem, hqd] at hne
      | cons q qs =>
        have hN : s.running.length = N := hq (by simp [hqd])
        refine ⟨?_, ?_⟩
        · simp [ExecPoolState.step, hmem, hqd]
          omega
        · intro _
          simp [ExecPoolState.step, hmem, hqd]
          omega
    · simpa [ExecPoolState.step, hmem] using ⟨hlen, hq⟩

theorem execPool_foldl_inv (N : Nat) (events : List PoolEvent) :
    ∀ s : ExecPoolState, ExecPoolState.Inv N s →
      ExecPoolState.Inv N (events.foldl (ExecPoolState.step N) s) := by
  induction events with
  | nil => intro s hs; simpa using hs
  | cons e es ih =>
    intro s hs
    simp only [List.foldl_cons]
    exact ih _ (execPool_step_inv N s e hs)

theorem execPool_full_submits (N : Nat) (tasks : List String) :
    ∀ s : ExecPoolState, N ≤ s.running.length →
      (tasks.map PoolEvent.submit).foldl (ExecPoolState.step N) s
        = ⟨s.running, s.queued ++ tasks⟩ := by
  induction tasks with
  | nil => intro s _; simp
  | cons t ts ih =>
    intro s hfull
    have hstep : ExecPoolState.step N s (PoolEvent.submit t)
        = ⟨s.running, s.queued ++ [t]⟩ := by
      simp [ExecPoolState.step, Nat.not_lt.mpr hfull]
    simp only [List.map_cons, List.foldl_cons, hstep]
    rw [ih ⟨s.running, s.queued ++ [t]⟩ hfull]
    simp

theorem execPool_fill_submits (N : Nat) (tasks : List String) :
    ∀ s : ExecPoolState, s.queued = [] →
      (tasks.map PoolEvent.submit).foldl (ExecPoolState.step N) s
        = ⟨s.running ++ tasks.take (N - s.running.length),
            tasks.drop (N - s.running.length)⟩ := by
  induction tasks with
  | nil =>
    intro s hs
    simp only [List.map_nil, List.foldl_nil, List.take_nil, List.drop_nil,
      List.append_nil]
    cases s
    simp_all
  | cons t ts ih =>
    intro s hs
    by_cases hfull : s.running.length < N
    · have hstep : ExecPoolState.step N s (PoolEvent.submit t)
          = ⟨s.running ++ [t], s.queued⟩ := by
        simp [ExecPoolState.step, hfull]
      simp only [List.map_cons, List.foldl_cons, hstep]
      rw [ih ⟨s.running ++ [t], s.queued⟩ hs]
      have hk : N - s.running.length = (N - (s.running.length + 1)) + 1 := by omega
      simp only [List.length_append, List.length_cons, List.length_nil, Nat.zero_add]
      rw [hk]
      simp [List.append_assoc]
    · have hge : N ≤ s.running.length := Nat.not_lt.mp hfull
      rw [execPool_full_submits N (t :: ts) s hge]
      have hk : N - s.running.length = 0 := by omega
      simp [hk, hs]

/-- C9: from a fresh pool, after any sequence of submit/complete events at
most N handler invocations run concurrently; submitting any task list makes
exactly the first N run while the excess queues in FIFO (input) order; and a
submission never starts any task beyond the submitted one itself — a queued
task starts only when a completion frees a slot. -/
theorem executor_bounded_pool (N : Nat) :
    (∀ events : List PoolEvent, (ExecPoolState.run N events).running.length ≤ N) ∧
    (∀ tasks : List String,
      ExecPoolState.run N (tasks.map PoolEvent.submit)
        = ⟨tasks.take N, tasks.drop N⟩) ∧
    (∀ (s : ExecPoolState) (t q : String),
      q ∈ (ExecPoolState.step N s (PoolEvent.submit t)).running →
        q ∈ s.running ∨ q = t) := by
  refine ⟨?_, ?_, ?_⟩
  · intro events
    exact (execPool_foldl_inv N events ExecPoolState.init
      ⟨by simp [ExecPoolState.init], by simp [ExecPoolState.init]⟩).1
  · intro tasks
    have h := execPool_fill_submits N tasks ExecPoolState.init rfl
    simpa [ExecPoolState.run, ExecPoolState.init] using h
  · intro s t q hmem
    by_cases hfull : s.running.length < N
    · simp only [ExecPoolState.step, if_pos hfull, List.mem_append,
        List.mem_singleton] at hmem
      exact hmem
    · simp only [ExecPoolState.step, if_neg hfull] at hmem
      exact Or.inl hmem

/-- C9 witness: with N = 2, submitting tasks a, b, c leaves a and b running
(2 = the bound) and c queued; and in that state a further submission of d
starts nothing but d itself being enqueued. -/
theorem executor_bounded_pool_witness :
    ExecPoolState.run 2 (["a", "b", "c"].map PoolEvent.submit)
        = ⟨["a", "b"], ["c"]⟩ ∧
    (ExecPoolState.run 2 (["a", "b", "c"].map PoolEvent.submit)).running.length ≤ 2 ∧
    ("a" ∈ (ExecPoolState.step 2 ⟨[], []⟩ (PoolEvent.submit "a")).running →
      "a" ∈ ([] : List String) ∨ "a" = "a") :=
  ⟨(executor_bounded_pool 2).2.1 ["a", "b", "c"],
    (executor_bounded_pool 2).1 (["a", "b", "c"].map PoolEvent.submit),
    fun h => (executor_bounded_pool 2).2.2 ⟨[], []⟩ "a" "a" h⟩

/-- C10: ExampleHandler.execute returns success with data "computation
result" for type "compute", success with data "storage result" for type
"storage", and for every other type a failed Result with empty data and
error "Unsupported task type: " followed by the type. -/
theorem exampleHandler_execute_spec (t : Task) :
    (t.type = "compute" →
      ExampleHandler.execute t = { success := true, data := "computation result", error := none }) ∧
    (t.type = "storage" →
      ExampleHandler.execute t = { success := true, data := "storage result", error := none }) ∧
    (t.type ≠ "compute" → t.type ≠ "storage" →
      ExampleHandler.execute t
        = { success := false, data := "", error := some ("Unsupported task type: " ++ t.type) }) := by
  refine ⟨?_, ?_, ?_⟩
  · intro h
    simp [ExampleHandler.execute, h]
  · intro h
    simp [ExampleHandler.execute, h]
  · intro h1 h2
    simp [ExampleHandler.execute, h1, h2]

/-- C10 witness: on the concrete "compute" task from `example.py` the handler
returns the successful computation result. -/
theorem exampleHandler_execute_spec_witness :
    ExampleHandler.execute exampleTask
      = { success := true, data := "computation result", error := none } :=
  (exampleHandler_execute_spec exampleTask).1 rfl

end SubnetSDK
